import Mathlib

/-!
Shallow embedding of `AsyncJob`
(`airbyte-integrations/connectors/source-facebook-marketing/source_facebook_marketing/streams/async_job.py`)
and proofs about its state machine.

Modelling conventions:
* Python's in-place mutation of `self` becomes explicit state passing on `JobState`;
  every operation returns the state after the call (including mutations performed
  before an exception was raised) together with an `Except Err` outcome.
* Remote calls (`get_insights`, `api_get`, `get_result`) are passed in as explicit
  oracle functions; the trailing `Nat` of an operation's result counts how many
  remote calls of the relevant kind the operation performed.
* `pendulum.now()` becomes an explicit `now : Nat` argument.
* Exceptions: `RuntimeError` (usage errors) is `Err.invalidUsage`,
  `FacebookRequestError` (the retried transient class) is `Err.transient`, and
  Python `TypeError`/`AttributeError` from operating on `None` is
  `Err.attributeError`.
-/

namespace AsyncJobSpec

/-- Async job statuses, from the `Status` enum in `async_job.py`. -/
inductive Status where
  | completed
  | failed
  | skipped
  | started
  | running
  | notStarted
deriving DecidableEq, Repr

/-- Job parameters (`self._params`): an opaque, immutable configuration holding at
least a time range and a breakdown set. -/
structure Params where
  timeRange : Nat
  breakdowns : Nat
deriving DecidableEq, Repr

/-- Snapshot of the remote `AdReportRun` object: identifier plus the
server-reported fields read by `_check_status` and `start`. -/
structure Handle where
  reportRunId : Nat
  asyncStatus : Status
  asyncPercentCompletion : Nat
deriving DecidableEq, Repr

/-- Error outcomes of the Python methods. -/
inductive Err where
  | invalidUsage
  | transient
  | attributeError
deriving DecidableEq, Repr

/-- State of one `AsyncJob` instance: `self._job`, `self._start_time`,
`self._finish_time`, `self._failed` (the immutable `self._params` is carried
along so that frame conditions about it can be stated). -/
structure JobState where
  params : Params
  job : Option Handle
  startTime : Option Nat
  finishTime : Option Nat
  failed : Bool
deriving DecidableEq, Repr

/-- State right after `__init__`. -/
def initState (p : Params) : JobState :=
  { params := p, job := none, startTime := none, finishTime := none, failed := false }

/-- Embeds the `elapsed_time` property: `None` if the job never started, otherwise
`(finishTime or now) - startTime`. -/
def elapsed_time (now : Nat) (st : JobState) : Option Int :=
  match st.startTime with
  | none => none
  | some s => some ((st.finishTime.getD now : Int) - (s : Int))

/-- Embeds `_check_status`. Reads the handle's status; on `COMPLETED` sets
`finishTime := now` and returns true; on `FAILED`/`SKIPPED` sets
`finishTime := now` and `failed := true`, then logs `elapsed_time.in_seconds()`
(which raises `AttributeError` when `elapsed_time` is `None`, i.e. when the job
has no start time) and returns true; otherwise returns false without mutation.
Reading a field of a `None` job raises. -/
def check_status (now : Nat) (st : JobState) : JobState × Except Err Bool :=
  match st.job with
  | none => (st, .error .attributeError)
  | some h =>
    if h.asyncStatus = .completed then
      ({ st with finishTime := some now }, .ok true)
    else if h.asyncStatus = .failed ∨ h.asyncStatus = .skipped then
      let st2 := { st with finishTime := some now, failed := true }
      match elapsed_time now st2 with
      | none => (st2, .error .attributeError)
      | some _ => (st2, .ok true)
    else
      (st, .ok false)

/-- Embeds `_update_job`: raises the usage error if the job is not started,
otherwise performs one remote status refresh (`self._job = self._job.api_get()`),
replacing the handle with the returned snapshot. The `Nat` counts refresh calls
performed. -/
def update_job (refresh : Handle → Except Err Handle) (st : JobState) :
    JobState × Except Err Unit × Nat :=
  match st.job with
  | none => (st, .error .invalidUsage, 0)
  | some h =>
    match refresh h with
    | .error e => (st, .error e, 1)
    | .ok h2 => ({ st with job := some h2 }, .ok (), 1)

/-- Embeds the `completed` property: memoized true once `finishTime` is set,
otherwise refresh via `_update_job` then apply `_check_status`. The `Nat` counts
remote status-refresh calls performed. -/
def completed (now : Nat) (refresh : Handle → Except Err Handle) (st : JobState) :
    JobState × Except Err Bool × Nat :=
  if st.finishTime.isSome then (st, .ok true, 0)
  else
    match update_job refresh st with
    | (st2, .error e, c) => (st2, .error e, c)
    | (st2, .ok _, c) =>
      let r := check_status now st2
      (r.1, r.2, c)

/-- Embeds `start`: raises the usage error if the job already started, otherwise
issues the remote `get_insights` call with the stored params; on success stores
the returned handle and stamps `startTime := now`. -/
def start (now : Nat) (startJob : Params → Except Err Handle) (st : JobState) :
    JobState × Except Err Unit :=
  match st.job with
  | some _ => (st, .error .invalidUsage)
  | none =>
    match startJob st.params with
    | .error e => (st, .error e)
    | .ok h => ({ st with job := some h, startTime := some now }, .ok ())

/-- Embeds `restart`: raises the usage error unless the job started and failed;
otherwise clears `job`, `failed`, `startTime`, `finishTime` and performs `start`. -/
def restart (now : Nat) (startJob : Params → Except Err Handle) (st : JobState) :
    JobState × Except Err Unit :=
  if st.job.isNone ∨ st.failed = false then (st, .error .invalidUsage)
  else
    start now startJob
      { st with job := none, failed := false, startTime := none, finishTime := none }

/-- Deferred status-check request produced by `self._job.api_get(pending=True)`:
a request bound to the job's remote node id. -/
structure Request where
  nodeId : Nat
deriving DecidableEq, Repr

/-- Embeds `batch_update_request`: `None` when `finishTime` is already set,
otherwise a pending request bound to the current handle (reading `api_get` on a
`None` job raises). -/
def batch_update_request (st : JobState) : Except Err (Option Request) :=
  if st.finishTime.isSome then .ok none
  else
    match st.job with
    | none => .error .attributeError
    | some h => .ok (some { nodeId := h.reportRunId })

/-- One element of a batch response: the fields of the remote snapshot that the
response reports (absent fields are retained from the prior snapshot by the
parser). -/
structure Response where
  reportRunId : Option Nat
  asyncStatus : Option Status
  asyncPercentCompletion : Option Nat
deriving DecidableEq, Repr

/-- Modelled from the spec: the external collaborator
`ParseDeferredStatusResponse(priorHandle, Response) -> JobHandle`
(`ObjectParser(reuse_object=self._job).parse_single(response.json())` in the
source, implemented in the `facebook_business` library, not in this repository):
a reuse-and-patch merge where fields present in the response override the prior
snapshot and absent fields are retained. -/
def parse_single (prior : Handle) (r : Response) : Handle :=
  { reportRunId := r.reportRunId.getD prior.reportRunId
    asyncStatus := r.asyncStatus.getD prior.asyncStatus
    asyncPercentCompletion := r.asyncPercentCompletion.getD prior.asyncPercentCompletion }

/-- Embeds `process_batch_result`: re-parse the handle from the batch response
(reuse-and-patch against the prior handle; parsing with a `None` prior raises),
then apply `_check_status` (whose boolean result the method discards). -/
def process_batch_result (now : Nat) (r : Response) (st : JobState) :
    JobState × Except Err Unit :=
  match st.job with
  | none => (st, .error .attributeError)
  | some h =>
    let res := check_status now { st with job := some (parse_single h r) }
    (res.1, res.2.map fun _ => ())

/-- Embeds `get_result`: raises the usage error if the job is not started or has
failed, otherwise performs the remote `get_result` call and returns its payload.
The `Nat` counts remote calls performed. -/
def get_result (fetch : Handle → Except Err Nat) (st : JobState) :
    JobState × Except Err Nat × Nat :=
  match st.job with
  | none => (st, .error .invalidUsage, 0)
  | some h =>
    if st.failed then (st, .error .invalidUsage, 0)
    else (st, fetch h, 1)

/-- Modelled from the spec: the retry policy built by `retry_pattern` in
`streams/common.py` (not in the source excerpt) wrapping a remote call —
attempts the call, retries on the designated transient error class with
exponential backoff, up to `fuel` attempts in total (counting from attempt
index `k`), and re-raises the error once attempts are exhausted; non-transient
errors are not retried. Returns the final outcome and the number of attempts
performed. Delays are not modelled. -/
def retryFrom {α : Type} (attempts : Nat → Except Err α) (k : Nat) :
    Nat → Except Err α × Nat
  | 0 => (.error .transient, 0)
  | fuel + 1 =>
    match attempts k, fuel with
    | .ok a, _ => (.ok a, 1)
    | .error .transient, 0 => (.error .transient, 1)
    | .error .transient, f + 1 =>
      let r := retryFrom attempts (k + 1) (f + 1)
      (r.1, r.2 + 1)
    | .error e, _ => (.error e, 1)

/-- Modelled from the spec: `backoff_policy = retry_pattern(backoff.expo,
FacebookRequestError, max_tries=5, factor=5)` applied to a call whose outcome on
attempt `k` is `attempts k`. -/
def retryCall {α : Type} (maxTries : Nat) (attempts : Nat → Except Err α) :
    Except Err α × Nat :=
  retryFrom attempts 0 maxTries

/-! ## Concrete values used by witnesses and counterexamples -/

/-- Concrete job parameters. -/
def wParams : Params := { timeRange := 1, breakdowns := 2 }

/-- Concrete handle whose remote status is `running`. -/
def wRunning : Handle :=
  { reportRunId := 7, asyncStatus := .running, asyncPercentCompletion := 40 }

/-- Concrete handle whose remote status is `completed`. -/
def wDone : Handle :=
  { reportRunId := 7, asyncStatus := .completed, asyncPercentCompletion := 100 }

/-- Concrete handle whose remote status is `failed`. -/
def wFailedH : Handle :=
  { reportRunId := 7, asyncStatus := .failed, asyncPercentCompletion := 40 }

/-- Concrete started, not yet finished job state. -/
def wStarted : JobState :=
  { params := wParams, job := some wRunning, startTime := some 3,
    finishTime := none, failed := false }

/-! ## Theorems -/

/-- C1: after any refresh (so the handle is present and the job has a start
time), `_check_status` behaves as the transition rule says: on `Completed` it
sets `finishTime := now` and returns true; on `Failed`/`Skipped` it sets
`finishTime := now` and `failed := true` and returns true; on any other status
it returns false and mutates nothing (the whole state, in particular
`finishTime`, `failed`, `startTime` and the parameters, is unchanged). -/
theorem check_status_transition (now : Nat) (st : JobState) (h : Handle) (t : Nat)
    (hj : st.job = some h) (hs : st.startTime = some t) :
    (h.asyncStatus = .completed →
      check_status now st = ({ st with finishTime := some now }, .ok true)) ∧
    ((h.asyncStatus = .failed ∨ h.asyncStatus = .skipped) →
      check_status now st = ({ st with finishTime := some now, failed := true }, .ok true)) ∧
    (h.asyncStatus ≠ .completed → h.asyncStatus ≠ .failed → h.asyncStatus ≠ .skipped →
      check_status now st = (st, .ok false)) := by
  refine ⟨fun hc => ?_, fun hfs => ?_, fun h1 h2 h3 => ?_⟩
  · simp [check_status, hj, hc]
  · have hne : ¬ h.asyncStatus = Status.completed := by
      rcases hfs with h1 | h1 <;> simp [h1]
    simp only [check_status, hj]
    rw [if_neg hne, if_pos hfs]
    simp [elapsed_time, hs]
  · simp [check_status, hj, h1, h2, h3]

/-- Witness for C1 at a concrete started job whose handle reports `running`. -/
theorem check_status_transition_witness :
    wStarted.job = some wRunning ∧ wStarted.startTime = some 3 ∧
    ((wRunning.asyncStatus = .completed →
      check_status 9 wStarted = ({ wStarted with finishTime := some 9 }, .ok true)) ∧
    ((wRunning.asyncStatus = .failed ∨ wRunning.asyncStatus = .skipped) →
      check_status 9 wStarted =
        ({ wStarted with finishTime := some 9, failed := true }, .ok true)) ∧
    (wRunning.asyncStatus ≠ .completed → wRunning.asyncStatus ≠ .failed →
      wRunning.asyncStatus ≠ .skipped → check_status 9 wStarted = (wStarted, .ok false))) :=
  ⟨rfl, rfl, check_status_transition 9 wStarted wRunning 3 rfl rfl⟩

/-- C2: `completed` is memoized — with `finishTime` set it returns true with
zero refresh calls and no state change; on a started job with `finishTime`
unset it performs exactly one status refresh and then evaluates the transition
rule (`_check_status`) on the state holding the refreshed handle. -/
theorem completed_memoization (now : Nat) (refresh : Handle → Except Err Handle)
    (st : JobState) (h : Handle) :
    (st.finishTime.isSome → completed now refresh st = (st, .ok true, 0)) ∧
    (st.finishTime = none → st.job = some h →
      (completed now refresh st).2.2 = 1 ∧
      completed now refresh st =
        match refresh h with
        | .error e => (st, .error e, 1)
        | .ok h2 =>
          ((check_status now { st with job := some h2 }).1,
           (check_status now { st with job := some h2 }).2, 1)) := by
  constructor
  · intro hf
    simp [completed, hf]
  · intro hf hj
    have hf2 : ¬ st.finishTime.isSome := by simp [hf]
    constructor
    · simp only [completed, update_job, hj]
      rw [if_neg hf2]
      cases refresh h <;> simp
    · simp only [completed, update_job, hj]
      rw [if_neg hf2]
      cases refresh h <;> simp

/-- Witness for C2 at a concrete started job and a refresh reporting `completed`. -/
theorem completed_memoization_witness :
    wStarted.finishTime = none ∧ wStarted.job = some wRunning ∧
    ((completed 9 (fun _ => .ok wDone) wStarted).2.2 = 1 ∧
      completed 9 (fun _ => .ok wDone) wStarted =
        match (fun (_ : Handle) => (.ok wDone : Except Err Handle)) wRunning with
        | .error e => (wStarted, .error e, 1)
        | .ok h2 =>
          ((check_status 9 { wStarted with job := some h2 }).1,
           (check_status 9 { wStarted with job := some h2 }).2, 1)) :=
  ⟨rfl, rfl,
    (completed_memoization 9 (fun _ => .ok wDone) wStarted wRunning).2 rfl rfl⟩

/-- C10: on a job that was never started (`job = none`, `finishTime = none`),
`completed` does not return false: it raises the not-started usage error from
`_update_job` before any refresh call or status evaluation, with the state
unchanged and zero remote calls. -/
theorem completed_not_started (now : Nat) (refresh : Handle → Except Err Handle)
    (st : JobState) (hj : st.job = none) (hf : st.finishTime = none) :
    completed now refresh st = (st, .error .invalidUsage, 0) := by
  have hf2 : ¬ st.finishTime.isSome := by simp [hf]
  simp only [completed, update_job, hj]
  rw [if_neg hf2]

/-- Witness for C10 at the freshly constructed job. -/
theorem completed_not_started_witness :
    (initState wParams).job = none ∧ (initState wParams).finishTime = none ∧
    completed 9 (fun _ => .ok wDone) (initState wParams) =
      (initState wParams, .error .invalidUsage, 0) :=
  ⟨rfl, rfl, completed_not_started 9 (fun _ => .ok wDone) (initState wParams) rfl rfl⟩

/-- C4: `restart` raises the usage error exactly when the job never started or
`failed` is false, and in that case the whole state (handle, timestamps, failed
flag, parameters) is unchanged; when the precondition holds it clears `job`,
`failed`, `startTime`, `finishTime` and then performs exactly the logic of
`start` on the cleared state. -/
theorem restart_spec (now : Nat) (startJob : Params → Except Err Handle)
    (st : JobState) :
    (st.job = none ∨ st.failed = false →
      restart now startJob st = (st, .error .invalidUsage)) ∧
    (st.job.isSome → st.failed = true →
      restart now startJob st =
        start now startJob
          { st with job := none, failed := false, startTime := none, finishTime := none }) := by
  constructor
  · intro hpre
    have hc : st.job.isNone = true ∨ st.failed = false := by
      rcases hpre with h1 | h1
      · exact Or.inl (by simp [h1])
      · exact Or.inr h1
    unfold restart
    rw [if_pos hc]
  · intro hj hfl
    have hc : ¬ (st.job.isNone = true ∨ st.failed = false) := by
      simp [Option.isNone_iff_eq_none, hfl]
      exact Option.isSome_iff_ne_none.mp hj
    unfold restart
    rw [if_neg hc]

/-- Witness for C4 at a concrete failed job. -/
theorem restart_spec_witness :
    ({ wStarted with finishTime := some 5, failed := true } : JobState).job.isSome ∧
    ({ wStarted with finishTime := some 5, failed := true } : JobState).failed = true ∧
    restart 9 (fun _ => .ok wRunning) { wStarted with finishTime := some 5, failed := true } =
      start 9 (fun _ => .ok wRunning)
        { ({ wStarted with finishTime := some 5, failed := true } : JobState) with
          job := none, failed := false, startTime := none, finishTime := none } :=
  ⟨rfl, rfl,
    (restart_spec 9 (fun _ => .ok wRunning)
      { wStarted with finishTime := some 5, failed := true }).2 rfl rfl⟩

/-- Counterexample for C5: on a job that was never started (`finishTime` not
set), `batch_update_request` does not return a request bound to a remote
handle — it raises, because there is no handle to bind; so "for every job whose
finishTime is not set it returns a non-null request" fails at this input. -/
theorem batch_update_request_cex :
    (initState wParams).finishTime = none ∧
    batch_update_request (initState wParams) = .error .attributeError ∧
    ∀ r : Request, batch_update_request (initState wParams) ≠ .ok (some r) := by
  refine ⟨rfl, rfl, fun r => ?_⟩
  simp [batch_update_request, initState, wParams]

/-- C5 (amended): `batch_update_request` returns `None` exactly when
`finishTime` is already set, and on every started job (handle present) whose
`finishTime` is not set it returns a non-null pending request bound to the
job's remote handle. -/
theorem batch_update_request_spec (st : JobState) (h : Handle) :
    (st.finishTime.isSome → batch_update_request st = .ok none) ∧
    (batch_update_request st = .ok none → st.finishTime.isSome) ∧
    (st.finishTime = none → st.job = some h →
      batch_update_request st = .ok (some { nodeId := h.reportRunId })) := by
  refine ⟨fun hf => ?_, fun hr => ?_, fun hf hj => ?_⟩
  · simp [batch_update_request, hf]
  · by_contra hf
    rw [Option.not_isSome_iff_eq_none] at hf
    have hf2 : ¬ st.finishTime.isSome := by simp [hf]
    rw [batch_update_request, if_neg hf2] at hr
    cases hjc : st.job with
    | none => rw [hjc] at hr; exact absurd hr (by simp)
    | some h2 => rw [hjc] at hr; exact absurd hr (by simp)
  · have hf2 : ¬ st.finishTime.isSome := by simp [hf]
    rw [batch_update_request, if_neg hf2, hj]

/-- Witness for C5 (amended) at a concrete started job. -/
theorem batch_update_request_spec_witness :
    wStarted.finishTime = none ∧ wStarted.job = some wRunning ∧
    batch_update_request wStarted = .ok (some { nodeId := wRunning.reportRunId }) :=
  ⟨rfl, rfl, (batch_update_request_spec wStarted wRunning).2.2 rfl rfl⟩

/-- C6: `get_result` raises the usage error exactly when the job never started
or `failed` is true, performing no remote call and leaving the state unchanged;
when the precondition holds it performs the remote retrieve-result call on the
handle and returns its payload, also leaving the state unchanged. -/
theorem get_result_spec (fetch : Handle → Except Err Nat) (st : JobState) (h : Handle) :
    (st.job = none ∨ st.failed = true →
      get_result fetch st = (st, .error .invalidUsage, 0)) ∧
    (st.job = some h → st.failed = false →
      get_result fetch st = (st, fetch h, 1)) := by
  constructor
  · intro hpre
    rcases hpre with h1 | h1
    · simp [get_result, h1]
    · cases hjc : st.job with
      | none => simp [get_result, hjc]
      | some h2 => simp [get_result, hjc, h1]
  · intro hj hfl
    simp [get_result, hj, hfl]

/-- Witness for C6 at a concrete failed job: usage error, no call, no change. -/
theorem get_result_spec_witness :
    (({ wStarted with failed := true } : JobState).job = none ∨
      ({ wStarted with failed := true } : JobState).failed = true) ∧
    get_result (fun _ => .ok 42) { wStarted with failed := true } =
      ({ wStarted with failed := true }, .error .invalidUsage, 0) :=
  ⟨Or.inr rfl,
    (get_result_spec (fun _ => .ok 42) { wStarted with failed := true } wRunning).1
      (Or.inr rfl)⟩

/-- Frame lemma: `_check_status` never changes the stored handle. -/
theorem check_status_fst_job (now : Nat) (st : JobState) :
    (check_status now st).1.job = st.job := by
  rcases st with ⟨p, j, s, f, fl⟩
  cases j with
  | none => rfl
  | some h =>
    simp only [check_status]
    split
    · rfl
    split
    · split <;> rfl
    · rfl

/-- C8: on both status-update paths the stored handle is replaced wholesale by
the newly returned snapshot: after `completed`'s refresh path the job field is
exactly the snapshot the refresh call returned, and after
`process_batch_result` it is exactly the snapshot produced by the parse of the
batch response (no other field of the prior handle survives except through that
returned snapshot). -/
theorem handle_replaced_wholesale (now : Nat) (refresh : Handle → Except Err Handle)
    (r : Response) (st : JobState) (h h2 : Handle)
    (hj : st.job = some h) (hf : st.finishTime = none) (hr : refresh h = .ok h2) :
    (completed now refresh st).1.job = some h2 ∧
    (process_batch_result now r st).1.job = some (parse_single h r) := by
  have hf2 : ¬ st.finishTime.isSome := by simp [hf]
  constructor
  · have heq : completed now refresh st =
        ((check_status now { st with job := some h2 }).1,
         (check_status now { st with job := some h2 }).2, 1) := by
      simp only [completed, update_job, hj, hr]
      rw [if_neg hf2]
    rw [heq]
    simp [check_status_fst_job]
  · have heq : (process_batch_result now r st).1 =
        (check_status now { st with job := some (parse_single h r) }).1 := by
      simp only [process_batch_result, hj]
    rw [heq]
    simp [check_status_fst_job]

/-- Concrete batch response reporting status `completed` at 100 percent. -/
def wResp : Response :=
  { reportRunId := none, asyncStatus := some .completed, asyncPercentCompletion := some 100 }

/-- Witness for C8 at a concrete started job, refresh and batch response. -/
theorem handle_replaced_wholesale_witness :
    wStarted.job = some wRunning ∧ wStarted.finishTime = none ∧
    (fun (_ : Handle) => (.ok wDone : Except Err Handle)) wRunning = .ok wDone ∧
    (completed 9 (fun _ => .ok wDone) wStarted).1.job = some wDone ∧
    (process_batch_result 9 wResp wStarted).1.job = some (parse_single wRunning wResp) :=
  ⟨rfl, rfl, rfl,
    handle_replaced_wholesale 9 (fun _ => .ok wDone) wResp wStarted wRunning wDone rfl rfl rfl⟩

/-- Concrete job that already finished successfully (`finishTime` set). -/
def wFinished : JobState :=
  { params := wParams, job := some wDone, startTime := some 3,
    finishTime := some 5, failed := false }

/-- Counterexample for C3: on a job whose `finishTime` is already set, a direct
`completed` call is memoized and leaves `finishTime = 5`, while
`process_batch_result` with a response reporting the very same remote snapshot
re-runs the transition rule and overwrites `finishTime` with the current time 9,
so the two end states are not identical. -/
theorem process_batch_result_vs_completed_cex :
    (completed 9 (fun _ => .ok (parse_single wDone wResp)) wFinished).1.finishTime = some 5 ∧
    (process_batch_result 9 wResp wFinished).1.finishTime = some 9 ∧
    (process_batch_result 9 wResp wFinished).1 ≠
      (completed 9 (fun _ => .ok (parse_single wDone wResp)) wFinished).1 := by
  refine ⟨rfl, rfl, ?_⟩
  decide

/-- C3 (amended): on every job whose `finishTime` is not yet set — the only
jobs the batch protocol polls, since `batch_update_request` returns `None`
otherwise — `process_batch_result` produces an end state (handle, timestamps,
failed flag) identical to the state a direct `completed` call would have
produced had the direct refresh reported the same remote snapshot that parsing
the batch response yields. -/
theorem process_batch_result_refines_completed (now : Nat) (r : Response)
    (st : JobState) (hf : st.finishTime = none) :
    (process_batch_result now r st).1 =
      (completed now (fun h => .ok (parse_single h r)) st).1 := by
  have hf2 : ¬ st.finishTime.isSome := by simp [hf]
  cases hj : st.job with
  | none =>
    simp only [process_batch_result, completed, update_job, hj]
    rw [if_neg hf2]
  | some h =>
    simp only [process_batch_result, completed, update_job, hj]
    rw [if_neg hf2]

/-- Witness for C3 (amended) at a concrete running job and batch response. -/
theorem process_batch_result_refines_completed_witness :
    wStarted.finishTime = none ∧
    (process_batch_result 9 wResp wStarted).1 =
      (completed 9 (fun h => .ok (parse_single h wResp)) wStarted).1 :=
  ⟨rfl, process_batch_result_refines_completed 9 wResp wStarted rfl⟩

/-- Attempt-count bound of the modelled retry policy. -/
theorem retryFrom_count_le {α : Type} (attempts : Nat → Except Err α) :
    ∀ fuel k, (retryFrom attempts k fuel).2 ≤ fuel := by
  intro fuel
  induction fuel with
  | zero => intro k; simp [retryFrom]
  | succ f ih =>
    intro k
    cases hak : attempts k with
    | ok a => simp [retryFrom, hak]
    | error e =>
      cases e with
      | invalidUsage => simp [retryFrom, hak]
      | attributeError => simp [retryFrom, hak]
      | transient =>
        cases f with
        | zero => simp [retryFrom, hak]
        | succ f2 =>
          have hle := ih (k + 1)
          simp only [retryFrom, hak]
          omega

/-- Error propagation of the modelled retry policy when every attempt fails
with the transient error. -/
theorem retryFrom_all_transient {α : Type} (attempts : Nat → Except Err α)
    (hall : ∀ j, attempts j = .error .transient) :
    ∀ fuel k, (retryFrom attempts k fuel).1 = .error .transient := by
  intro fuel
  induction fuel with
  | zero => intro k; simp [retryFrom]
  | succ f ih =>
    intro k
    cases f with
    | zero => simp [retryFrom, hall k]
    | succ f2 => simp [retryFrom, hall k, ih (k + 1)]

/-- C9: the retry policy (max_tries = 5) performs at most 5 attempts of the
wrapped call; when every attempt fails with the transient error, the transient
error propagates to the caller, and each of the three retried operations —
the status refresh inside `completed`, the `start` call, and `get_result` —
returns that error with the job state (handle, timestamps, failed flag) exactly
as it was before the call. -/
theorem retry_policy_spec (attempts : Nat → Except Err Handle)
    (fetchAttempts : Nat → Except Err Nat) (now : Nat) (st : JobState) (h : Handle)
    (hall : ∀ k, attempts k = .error .transient)
    (hallF : ∀ k, fetchAttempts k = .error .transient) :
    (retryCall 5 attempts).2 ≤ 5 ∧
    (retryCall 5 fetchAttempts).2 ≤ 5 ∧
    (retryCall 5 attempts).1 = .error .transient ∧
    (st.job = some h → st.finishTime = none →
      completed now (fun _ => (retryCall 5 attempts).1) st = (st, .error .transient, 1)) ∧
    (st.job = none →
      start now (fun _ => (retryCall 5 attempts).1) st = (st, .error .transient)) ∧
    (st.job = some h → st.failed = false →
      get_result (fun _ => (retryCall 5 fetchAttempts).1) st = (st, .error .transient, 1)) := by
  have hprop : (retryCall 5 attempts).1 = .error .transient :=
    retryFrom_all_transient attempts hall 5 0
  have hpropF : (retryCall 5 fetchAttempts).1 = .error .transient :=
    retryFrom_all_transient fetchAttempts hallF 5 0
  refine ⟨retryFrom_count_le attempts 5 0, retryFrom_count_le fetchAttempts 5 0, hprop,
    fun hj hf => ?_, fun hj => ?_, fun hj hfl => ?_⟩
  · have hf2 : ¬ st.finishTime.isSome := by simp [hf]
    simp only [completed, update_job, hj, hprop]
    rw [if_neg hf2]
  · simp only [start, hj, hprop]
  · simp only [get_result, hj, hfl, hpropF]
    simp

/-- Witness for C9 at concrete always-transient attempt sequences and a
concrete running job. -/
theorem retry_policy_spec_witness :
    (retryCall 5 (fun _ => (.error .transient : Except Err Handle))).2 ≤ 5 ∧
    (retryCall 5 (fun _ => (.error .transient : Except Err Nat))).2 ≤ 5 ∧
    (retryCall 5 (fun _ => (.error .transient : Except Err Handle))).1 = .error .transient ∧
    (wStarted.job = some wRunning → wStarted.finishTime = none →
      completed 9 (fun _ => (retryCall 5 (fun _ => (.error .transient : Except Err Handle))).1)
          wStarted = (wStarted, .error .transient, 1)) ∧
    (wStarted.job = none →
      start 9 (fun _ => (retryCall 5 (fun _ => (.error .transient : Except Err Handle))).1)
          wStarted = (wStarted, .error .transient)) ∧
    (wStarted.job = some wRunning → wStarted.failed = false →
      get_result (fun _ => (retryCall 5 (fun _ => (.error .transient : Except Err Nat))).1)
          wStarted = (wStarted, .error .transient, 1)) :=
  retry_policy_spec (fun _ => .error .transient) (fun _ => .error .transient)
    9 wStarted wRunning (fun _ => rfl) (fun _ => rfl)

/-! ## Ghost instrumentation for the state invariant (C7)

The spec's invariant speaks about "the last observed status", which is not a
field of the Python object: it is the status most recently read from the
remote handle by `_check_status`. `GState` carries that status as a ghost
field next to the real state, and each public operation is wrapped so that it
updates the ghost field exactly when the code reads a status. -/

/-- Ghost-instrumented job state: the real state plus the remote status most
recently read by `_check_status` (`none` while no status of the current remote
job has been observed). -/
structure GState where
  core : JobState
  lastObserved : Option Status
deriving DecidableEq, Repr

/-- Ghost state right after `__init__`. -/
def ginit (p : Params) : GState := { core := initState p, lastObserved := none }

/-- Attaches a ghost observation to a state. -/
def withObs (st : JobState) (lo : Option Status) : GState :=
  { core := st, lastObserved := lo }

/-- Ghost `_check_status`: runs `check_status` and records the status it read. -/
def gcheck (now : Nat) (g : GState) : GState × Except Err Bool :=
  match g.core.job with
  | none => (g, .error .attributeError)
  | some h =>
    let r := check_status now g.core
    ({ core := r.1, lastObserved := some h.asyncStatus }, r.2)

/-- Ghost `start`: reads no status. -/
def gstart (now : Nat) (sj : Params → Except Err Handle) (g : GState) :
    GState × Except Err Unit :=
  let r := start now sj g.core
  ({ core := r.1, lastObserved := g.lastObserved }, r.2)

/-- Ghost `restart`: discarding the remote job also discards the observation
recorded for it. -/
def grestart (now : Nat) (sj : Params → Except Err Handle) (g : GState) :
    GState × Except Err Unit :=
  let r := restart now sj g.core
  if g.core.job.isNone ∨ g.core.failed = false then
    ({ core := r.1, lastObserved := g.lastObserved }, r.2)
  else
    ({ core := r.1, lastObserved := none }, r.2)

/-- Ghost `completed`: memoized path reads nothing; refresh path runs the ghost
`_check_status` on the refreshed handle. -/
def gcompleted (now : Nat) (refresh : Handle → Except Err Handle) (g : GState) :
    GState × Except Err Bool :=
  if g.core.finishTime.isSome then (g, .ok true)
  else
    match update_job refresh g.core with
    | (st2, .error e, _) => ({ core := st2, lastObserved := g.lastObserved }, .error e)
    | (st2, .ok _, _) => gcheck now { core := st2, lastObserved := g.lastObserved }

/-- Ghost `process_batch_result`. -/
def gprocess (now : Nat) (r : Response) (g : GState) : GState × Except Err Unit :=
  match g.core.job with
  | none => (g, .error .attributeError)
  | some h =>
    let res := gcheck now
      { core := { g.core with job := some (parse_single h r) }, lastObserved := g.lastObserved }
    (res.1, res.2.map fun _ => ())

/-- Ghost `get_result`: reads no status and changes no state. -/
def gget (fetch : Handle → Except Err Nat) (g : GState) : GState × Except Err Nat :=
  let r := get_result fetch g.core
  ({ core := r.1, lastObserved := g.lastObserved }, r.2.1)

/-- One public operation of the job, with the batch path used as the batch
protocol guarantees: `process_batch_result` is only invoked on jobs whose
`finishTime` is not yet set (for a finished job `batch_update_request` returns
`None`, so no batch response element exists for it). -/
inductive GStep : GState → GState → Prop where
  | start (now : Nat) (sj : Params → Except Err Handle) (g : GState) :
      GStep g (gstart now sj g).1
  | restart (now : Nat) (sj : Params → Except Err Handle) (g : GState) :
      GStep g (grestart now sj g).1
  | completed (now : Nat) (refresh : Handle → Except Err Handle) (g : GState) :
      GStep g (gcompleted now refresh g).1
  | process (now : Nat) (r : Response) (g : GState)
      (hf : g.core.finishTime = none) :
      GStep g (gprocess now r g).1
  | fetch (fetch : Handle → Except Err Nat) (g : GState) :
      GStep g (gget fetch g).1

/-- States reachable from a freshly constructed job through public operations. -/
inductive GReachable : GState → Prop where
  | init (p : Params) : GReachable (ginit p)
  | step {g g2 : GState} : GReachable g → GStep g g2 → GReachable g2

/-- Whether an observed status is terminal. -/
def statusTerminal : Option Status → Bool
  | some .completed => true
  | some .failed => true
  | some .skipped => true
  | _ => false

/-- Whether an observed status is a failure terminal. -/
def statusFailure : Option Status → Bool
  | some .failed => true
  | some .skipped => true
  | _ => false

/-- The claimed state invariant: `finishTime` is set iff the last observed
status is terminal, `failed` iff it is a failure terminal; auxiliarily, the
handle and the start time are set together, and a job without a handle has no
observation. -/
def Inv (g : GState) : Prop :=
  g.core.job.isSome = g.core.startTime.isSome ∧
  g.core.finishTime.isSome = statusTerminal g.lastObserved ∧
  g.core.failed = statusFailure g.lastObserved ∧
  (g.core.job = none → g.lastObserved = none)

/-- Failure terminals are terminal. -/
theorem statusFailure_terminal (lo : Option Status) :
    statusFailure lo = true → statusTerminal lo = true := by
  cases lo with
  | none => simp [statusFailure]
  | some s => cases s <;> simp [statusFailure, statusTerminal]

/-- Preservation of the invariant by the ghost `_check_status` applied to a
started, unfinished, unfailed state whose handle was just replaced. -/
theorem inv_gcheck_updated (now : Nat) (st : JobState) (lo : Option Status)
    (h2 : Handle) (hstart : st.startTime.isSome = true) (hf : st.finishTime = none)
    (hfl : st.failed = false) :
    Inv (gcheck now { core := { st with job := some h2 }, lastObserved := lo }).1 := by
  rcases st with ⟨p, j, s, f, fl⟩
  cases s with
  | none => simp at hstart
  | some t =>
    simp only at hf hfl
    subst hf hfl
    cases hst : h2.asyncStatus <;>
      simp [gcheck, check_status, elapsed_time, Inv, statusTerminal, statusFailure, hst]

/-- Preservation of the invariant by ghost `start`. -/
theorem inv_gstart (now : Nat) (sj : Params → Except Err Handle) (g : GState)
    (hinv : Inv g) : Inv (gstart now sj g).1 := by
  obtain ⟨i1, i2, i3, i4⟩ := hinv
  cases hj : g.core.job with
  | some h => simpa [gstart, start, hj] using ⟨i1, i2, i3, i4⟩
  | none =>
    have hlo : g.lastObserved = none := i4 hj
    cases hsj : sj g.core.params with
    | error e => simpa [gstart, start, hj, hsj] using ⟨i1, i2, i3, i4⟩
    | ok h =>
      rw [hj] at i1
      rw [hlo] at i2 i3
      simp only [statusTerminal, statusFailure] at i2 i3
      simp [gstart, start, hj, hsj, Inv, hlo, statusTerminal, statusFailure, i2, i3]

/-- Preservation of the invariant by ghost `restart`. -/
theorem inv_grestart (now : Nat) (sj : Params → Except Err Handle) (g : GState)
    (hinv : Inv g) : Inv (grestart now sj g).1 := by
  obtain ⟨i1, i2, i3, i4⟩ := hinv
  unfold grestart restart
  by_cases hc : g.core.job.isNone = true ∨ g.core.failed = false
  · rw [if_pos hc, if_pos hc]
    exact ⟨i1, i2, i3, i4⟩
  · rw [if_neg hc, if_neg hc]
    cases hsj : sj g.core.params with
    | error e => simp [start, hsj, Inv, statusTerminal, statusFailure]
    | ok h => simp [start, hsj, Inv, statusTerminal, statusFailure]

/-- Preservation of the invariant by ghost `completed`. -/
theorem inv_gcompleted (now : Nat) (refresh : Handle → Except Err Handle)
    (g : GState) (hinv : Inv g) : Inv (gcompleted now refresh g).1 := by
  obtain ⟨i1, i2, i3, i4⟩ := hinv
  unfold gcompleted
  by_cases hfin : g.core.finishTime.isSome
  · rw [if_pos hfin]
    exact ⟨i1, i2, i3, i4⟩
  · rw [if_neg hfin]
    have hf : g.core.finishTime = none := Option.not_isSome_iff_eq_none.mp hfin
    have hfl : g.core.failed = false := by
      rcases hfail : statusFailure g.lastObserved with _ | _
      · rw [hfail] at i3; exact i3
      · have := statusFailure_terminal g.lastObserved hfail
        rw [this] at i2
        rw [hf] at i2
        simp at i2
    cases hj : g.core.job with
    | none =>
      have hu : update_job refresh g.core = (g.core, .error .invalidUsage, 0) := by
        simp [update_job, hj]
      rw [hu]
      exact ⟨i1, i2, i3, i4⟩
    | some h =>
      cases hrf : refresh h with
      | error e =>
        have hu : update_job refresh g.core = (g.core, .error e, 1) := by
          simp [update_job, hj, hrf]
        rw [hu]
        exact ⟨i1, i2, i3, i4⟩
      | ok h2 =>
        have hu : update_job refresh g.core =
            ({ g.core with job := some h2 }, .ok (), 1) := by
          simp [update_job, hj, hrf]
        rw [hu]
        have hstart : g.core.startTime.isSome = true := by
          rw [← i1, hj]
          rfl
        exact inv_gcheck_updated now g.core g.lastObserved h2 hstart hf hfl

/-- Preservation of the invariant by ghost `process_batch_result` on an
unfinished job. -/
theorem inv_gprocess (now : Nat) (r : Response) (g : GState)
    (hf : g.core.finishTime = none) (hinv : Inv g) : Inv (gprocess now r g).1 := by
  obtain ⟨i1, i2, i3, i4⟩ := hinv
  have hfl : g.core.failed = false := by
    rcases hfail : statusFailure g.lastObserved with _ | _
    · rw [hfail] at i3; exact i3
    · have := statusFailure_terminal g.lastObserved hfail
      rw [this] at i2
      rw [hf] at i2
      simp at i2
  cases hj : g.core.job with
  | none =>
    simp only [gprocess, hj]
    exact ⟨i1, i2, i3, i4⟩
  | some h =>
    have hstart : g.core.startTime.isSome = true := by
      rw [← i1, hj]
      rfl
    simp only [gprocess, hj]
    exact inv_gcheck_updated now g.core g.lastObserved (parse_single h r) hstart hf hfl

/-- Frame lemma: `get_result` never changes the state. -/
theorem get_result_fst (fetch : Handle → Except Err Nat) (st : JobState) :
    (get_result fetch st).1 = st := by
  cases hj : st.job with
  | none => simp [get_result, hj]
  | some h =>
    by_cases hfl : st.failed <;> simp [get_result, hj, hfl]

/-- C7 (amended): in every state reachable from a fresh job through the public
operations — with `process_batch_result` invoked only on jobs whose
`finishTime` is not yet set, as the batch protocol guarantees since
`batch_update_request` returns `None` for finished jobs — `finishTime` is set
iff the last observed remote status is terminal, and `failed` is true iff the
last observed remote status is a failure terminal. -/
theorem invariant_reachable (g : GState) (hr : GReachable g) : Inv g := by
  induction hr with
  | init p => exact ⟨rfl, rfl, rfl, fun _ => rfl⟩
  | step hreach hstep ih =>
    cases hstep with
    | start now sj g0 => exact inv_gstart now sj _ ih
    | restart now sj g0 => exact inv_grestart now sj _ ih
    | completed now refresh g0 => exact inv_gcompleted now refresh _ ih
    | process now r g0 hf => exact inv_gprocess now r _ hf ih
    | fetch fetch g0 =>
      obtain ⟨i1, i2, i3, i4⟩ := ih
      simpa [gget, get_result_fst] using ⟨i1, i2, i3, i4⟩

/-- Reachable ghost state of a started job. -/
def wG1 : GState := (gstart 3 (fun _ => .ok wRunning) (ginit wParams)).1

/-- Reachable ghost state of a job whose refresh reported `failed`. -/
def wG2 : GState := (gcompleted 5 (fun _ => .ok wFailedH) wG1).1

/-- Witness for C7 (amended): the invariant holds at the concrete reachable
state of a job observed as failed. -/
theorem invariant_reachable_witness : Inv wG2 :=
  invariant_reachable wG2
    (GReachable.step
      (GReachable.step (GReachable.init wParams)
        (GStep.start 3 (fun _ => .ok wRunning) (ginit wParams)))
      (GStep.completed 5 (fun _ => .ok wFailedH) wG1))

/-- Counterexample for C7 as stated: `wG2` is reachable through public
operations and satisfies the invariant, but the public operation
`process_batch_result` — applied to this already-finished failed job with a
batch response reporting `Completed` — produces a state where `failed` is still
true although the last observed status is the success terminal, so the
operation does not preserve the invariant. -/
theorem invariant_cex :
    GReachable wG2 ∧ Inv wG2 ∧ wG2.core.failed = true ∧
    (gprocess 9 wResp wG2).1.lastObserved = some .completed ∧
    (gprocess 9 wResp wG2).1.core.failed = true ∧
    ¬ Inv (gprocess 9 wResp wG2).1 := by
  refine ⟨?_, ?_, ?_, ?_, ?_, ?_⟩
  · exact GReachable.step
      (GReachable.step (GReachable.init wParams)
        (GStep.start 3 (fun _ => .ok wRunning) (ginit wParams)))
      (GStep.completed 5 (fun _ => .ok wFailedH) wG1)
  · unfold Inv
    decide
  · decide
  · decide
  · decide
  · unfold Inv
    decide

end AsyncJobSpec
